import Mathlib

/-!
Shallow embedding of the transcription app
(`src/src/components/TranscriptionApp.tsx`, primary variant, and its
near-duplicates `src/unnamed/part_001` and the second variant appended to
the same `.tsx` file).

The embedding covers the three cores the specification singles out:
* the Transcription Job Orchestrator (`uploadToAssemblyAI`,
  `pollTranscriptionStatus`, `handleSubmit`),
* the Speaker Excerpt Selector (`findSpeakerExcerpts`),
* the Bounded Audio Playback Controller (`playAudioExcerpt`,
  `stopCurrentPlayback`, the `timeupdate` handler).

Network responses are supplied by oracles (a function from the poll
attempt number to the provider's response, plus success flags for the
upload and transcript-request calls), so the sequential `await` structure
of the TypeScript becomes ordinary sequential code and every network
call the code issues is recorded explicitly.
-/

namespace TranscriptionApp

/-- One speaker-attributed segment of recognized speech.  Mirrors the
TypeScript `interface Utterance`; the source field `end` is spelled
`endMs` here because `end` is a Lean keyword. -/
structure Utterance where
  speaker : String
  start : Int
  endMs : Int
  text : String
  deriving DecidableEq, Repr

/-- Duration of an utterance, the `end - start` of the comparator in
`findSpeakerExcerpts`. -/
def duration (u : Utterance) : Int := u.endMs - u.start

/-- A provider poll response: the JSON object returned by
`GET /v2/transcript/{id}`.  The orchestrator only inspects `status` and,
on completion, hands the whole payload back; `utterances` stands for the
rest of the payload. -/
structure PollResponse where
  status : String
  utterances : List Utterance
  deriving DecidableEq, Repr

/-- Failure classes of the orchestrator.  Each constructor corresponds to
one `throw new Error(...)` site in the source:
`authError` ↦ "Please enter your AssemblyAI API key",
`uploadError` ↦ "Failed to upload audio file",
`submitError` ↦ "Failed to initiate transcription",
`remoteProcessingError` ↦ "Transcription failed" (poll saw status "error"),
`timeoutError` ↦ "Transcription timed out". -/
inductive TranscriptionError where
  | authError
  | uploadError
  | submitError
  | remoteProcessingError
  | timeoutError
  deriving DecidableEq, Repr

/-- The constant `const maxAttempts = 120` of `pollTranscriptionStatus`. -/
def maxAttempts : Nat := 120

/-- The `while (attempts < maxAttempts)` loop of `pollTranscriptionStatus`.
`fuel` is `maxAttempts - attempts`, the number of iterations the guard
`attempts < maxAttempts` still allows, so `fuel = 0` is exactly the guard
failing: the loop exits and the function throws "Transcription timed out".
`attempts` is the number of queries already made, used to index the
response oracle: `resp i` is the provider's response to the query issued
when `attempts = i`.  The second component of the result counts how many
status queries (`fetch` of `/v2/transcript/{id}`) the loop performs from
this point on. -/
def pollLoop (resp : Nat → PollResponse) :
    Nat → Nat → Except TranscriptionError PollResponse × Nat
  | 0, _ => (Except.error TranscriptionError.timeoutError, 0)
  | fuel + 1, attempts =>
    let data := resp attempts
    if data.status = "completed" then
      (Except.ok data, 1)
    else if data.status = "error" then
      (Except.error TranscriptionError.remoteProcessingError, 1)
    else
      let r := pollLoop resp fuel (attempts + 1)
      (r.1, r.2 + 1)

/-- Embeds `pollTranscriptionStatus`: guard on a missing API key, then the poll
loop starting at `attempts = 0` (so with `maxAttempts` iterations of
budget).  Returns the outcome together with the number of status queries
issued. -/
def pollTranscriptionStatus (apiKey : String) (resp : Nat → PollResponse) :
    Except TranscriptionError PollResponse × Nat :=
  if apiKey = "" then
    (Except.error TranscriptionError.authError, 0)
  else
    pollLoop resp maxAttempts 0

/-- A network call the orchestrator can issue: the upload `fetch`, the
transcript-request `fetch`, or the `i`-th status poll. -/
inductive NetCall where
  | upload
  | transcribe
  | pollStatus (i : Nat)
  deriving DecidableEq, Repr

/-- Oracle for one end-to-end submission: whether the upload and
transcript-request `fetch`es come back `ok`, and the poll responses. -/
structure NetOracle where
  uploadOk : Bool
  transcribeOk : Bool
  resp : Nat → PollResponse

/-- Embeds `uploadToAssemblyAI`: API-key guard (before the `try` block, hence
before any `fetch`), then upload, then the transcription request, then
the poll loop.  The second component lists, in order, every network call
the function issues.  The `catch` in the source re-throws with a
"Transcription failed: <cause>" wrapper that keeps the cause; the error
class is therefore preserved and the wrapper is not modelled
separately. -/
def uploadToAssemblyAI (apiKey : String) (net : NetOracle) :
    Except TranscriptionError PollResponse × List NetCall :=
  if apiKey = "" then
    (Except.error TranscriptionError.authError, [])
  else if !net.uploadOk then
    (Except.error TranscriptionError.uploadError, [NetCall.upload])
  else if !net.transcribeOk then
    (Except.error TranscriptionError.submitError, [NetCall.upload, NetCall.transcribe])
  else
    let r := pollTranscriptionStatus apiKey net.resp
    (r.1, [NetCall.upload, NetCall.transcribe] ++ (List.range r.2).map NetCall.pollStatus)

/-! Speaker Excerpt Selector (`findSpeakerExcerpts`). -/

/-- JavaScript object keys in first-insertion order.  `excerptsBySpeaker`
gets a key the first time a speaker is seen, so `Object.keys` lists
speakers in first-seen order; `seen` accumulates the keys already
emitted. -/
def objectKeysAux (seen : List String) : List String → List String
  | [] => []
  | s :: rest =>
    if s ∈ seen then objectKeysAux seen rest
    else s :: objectKeysAux (s :: seen) rest

/-- Embeds `Object.keys(excerptsBySpeaker)`: the distinct speakers in first-seen
order. -/
def objectKeys (l : List String) : List String := objectKeysAux [] l

/-- Embeds `excerptsBySpeaker[s]`: the utterances of speaker `s` in original
transcript order (the grouping loop pushes utterances in input order). -/
def speakerGroup (us : List Utterance) (s : String) : List Utterance :=
  us.filter (fun u => u.speaker == s)

/-- The sort order of the comparator `(a, b) => (b.end - b.start) - (a.end - a.start)`:
`a` may stay before `b` exactly when the comparator is `≤ 0`, i.e. when
`duration b ≤ duration a` (descending duration). -/
def excerptLE (a b : Utterance) : Prop := duration b ≤ duration a

instance : DecidableRel excerptLE := fun a b =>
  inferInstanceAs (Decidable (duration b ≤ duration a))

instance : IsTotal Utterance excerptLE :=
  ⟨fun a b => (Int.le_total (duration b) (duration a))⟩

instance : IsTrans Utterance excerptLE :=
  ⟨fun _ _ _ hab hbc => le_trans hbc hab⟩

/-- Embeds `findSpeakerExcerpts`: group the utterances by speaker (preserving
input order inside each group), sort each group by the descending-duration
comparator with JavaScript's stable `Array.prototype.sort` — embedded as
the stable `List.insertionSort`, which produces the same list as any
stable sort for the same total preorder — and keep `slice(0, 3)`.  The
result is the association list underlying the returned object, keyed in
`Object.keys` order.  `selectedExcerpts` is the per-speaker body: the
stable descending sort of the speaker's group followed by
`slice(0, 3)`. -/
def selectedExcerpts (us : List Utterance) (s : String) : List Utterance :=
  (List.insertionSort excerptLE (speakerGroup us s)).take 3

def findSpeakerExcerpts (us : List Utterance) : List (String × List Utterance) :=
  (objectKeys (us.map (·.speaker))).map fun s => (s, selectedExcerpts us s)

/-! Bounded Audio Playback Controller.

`playAudioExcerpt`, `stopCurrentPlayback` and the `timeupdate` handler of
the primary variant.  The audio element is modelled explicitly: `attached`
is the list of `timeupdate` listeners currently registered on it,
`audioTime` its `currentTime` (in seconds, a rational), `audioSrc` its
`src`.  Object URLs (`URL.createObjectURL`) are numbered by a fresh
counter; `urls` is the set of URLs created and not yet revoked
(`URL.revokeObjectURL`).  A `Watcher` is one `handleTimeUpdate` closure:
it captures the range end `endMs` and the object `url` it would revoke,
and carries a fresh `id` because distinct closures are distinct listeners
for `removeEventListener`. -/

/-- One `handleTimeUpdate` closure created by `playAudioExcerpt`. -/
structure Watcher where
  endMs : Int
  url : Nat
  id : Nat
  deriving DecidableEq, Repr

/-- The controller state: the component state (`currentAudio`,
`isPlaying`), the `activeTimeUpdateHandler` ref, and the modelled audio
element and object-URL registry. -/
structure PlayerState where
  hasFile : Bool
  currentAudio : Option String
  isPlaying : Bool
  audioSrc : Option Nat
  audioTime : ℚ
  attached : List Watcher
  activeHandler : Option Watcher
  urls : List Nat
  nextId : Nat
  deriving DecidableEq, Repr

/-- The range key `` `${start}-${end}` `` identifying a playback session. -/
def rangeKey (start endMs : Int) : String :=
  toString start ++ "-" ++ toString endMs

/-- Embeds `stopCurrentPlayback`: pause, remove the listener stored in
`activeTimeUpdateHandler` (if any) from the audio element, clear the ref,
clear `src`, and clear the `(isPlaying, currentAudio)` observable pair.
It does not revoke any object URL. -/
def stopCurrentPlayback (s : PlayerState) : PlayerState :=
  { s with
    isPlaying := false
    currentAudio := none
    attached :=
      match s.activeHandler with
      | some w => s.attached.erase w
      | none => s.attached
    activeHandler := none
    audioSrc := none }

/-- Embeds `playAudioExcerpt(start, end)`.  `playOk` says whether the
`audioRef.current.play()` promise fulfils; its rejection is the `catch`
path, which runs `stopCurrentPlayback()`.  The guard `!file ||
!audioRef.current` is modelled by `hasFile` (the element always exists
after mount).  The toggle check compares the render-time `currentAudio`
captured by the closure — i.e. the value *before* this call; the
`setCurrentAudio(null)` inside `stopCurrentPlayback` does not change the
captured variable. -/
def playAudioExcerpt (s : PlayerState) (start endMs : Int) (playOk : Bool) :
    PlayerState :=
  if !s.hasFile then s
  else
    let s1 := stopCurrentPlayback s
    if s.currentAudio = some (rangeKey start endMs) then s1
    else
      let url := s1.nextId
      let w : Watcher := ⟨endMs, url, s1.nextId⟩
      let s2 : PlayerState :=
        { s1 with
          urls := s1.urls ++ [url]
          audioSrc := some url
          audioTime := (start : ℚ) / 1000
          activeHandler := some w
          attached := s1.attached ++ [w]
          nextId := s1.nextId + 1 }
      if playOk then
        { s2 with
          isPlaying := true
          currentAudio := some (rangeKey start endMs) }
      else
        stopCurrentPlayback s2

/-- The body of one `handleTimeUpdate` closure `w`, as invoked by the
audio element: it runs only if `w` is still registered, checks
`audioRef.current.currentTime >= end / 1000`, and on success runs
`stopCurrentPlayback()` and `URL.revokeObjectURL(url)`. -/
def fireWatcher (s : PlayerState) (w : Watcher) : PlayerState :=
  if w ∈ s.attached then
    if s.audioTime ≥ (w.endMs : ℚ) / 1000 then
      let s' := stopCurrentPlayback s
      { s' with urls := s'.urls.filter (fun u => u != w.url) }
    else s
  else s

/-- A `timeupdate` event at playback position `pos` (seconds): the element
updates `currentTime` and notifies its registered listeners; a listener
removed while the event is handled is not invoked (the `w ∈ attached`
guard in `fireWatcher`). -/
def dispatchTimeUpdate (s : PlayerState) (pos : ℚ) : PlayerState :=
  let s1 := { s with audioTime := pos }
  s1.attached.foldl fireWatcher s1

/-- The controller's event alphabet: a `playAudioExcerpt` call (with the
fate of its `play()` promise), a position notification, and an explicit
`stopCurrentPlayback` call. -/
inductive PlayerEvent where
  | play (start endMs : Int) (playOk : Bool)
  | timeupdate (pos : ℚ)
  | stop
  deriving Repr

/-- One controller step. -/
def playerStep (s : PlayerState) : PlayerEvent → PlayerState
  | PlayerEvent.play a b ok => playAudioExcerpt s a b ok
  | PlayerEvent.timeupdate pos => dispatchTimeUpdate s pos
  | PlayerEvent.stop => stopCurrentPlayback s

/-- Run a sequence of controller events. -/
def playerRun (s : PlayerState) (es : List PlayerEvent) : PlayerState :=
  es.foldl playerStep s

/-- The state after mount with a file selected: nothing playing, no
listener registered, no object URL outstanding. -/
def initPlayer : PlayerState :=
  { hasFile := true
    currentAudio := none
    isPlaying := false
    audioSrc := none
    audioTime := 0
    attached := []
    activeHandler := none
    urls := []
    nextId := 0 }

/-- A controller state reachable from the initial state. -/
def PlayerReachable (s : PlayerState) : Prop :=
  ∃ es, playerRun initPlayer es = s

/-! Overlapping submissions in `handleSubmit`.

The component state touched by `handleSubmit`, with submissions
identified by the order in which they start.  `inflight` is the set of
submissions whose `uploadToAssemblyAI` promise has not yet settled;
`nextJob - 1` is the most recent (current) submission.  The crucial
modelling point, taken directly from the source: when a submission's
promise fulfils, `handleSubmit` applies the result unconditionally —
`setTranscription(result)`, `setSpeakers(...)`,
`setSpeakerExcerpts(...)` — there is no comparison of the resolving
submission against any current-job marker anywhere in the code. -/

/-- The `handleSubmit`-relevant component state plus submission
bookkeeping. -/
structure AppState where
  transcription : Option (List Utterance)
  speakers : List (String × String)
  speakerExcerpts : List (String × List Utterance)
  loading : Bool
  errorShown : Bool
  inflight : List Nat
  nextJob : Nat
  deriving DecidableEq, Repr

/-- Submission events: a `handleSubmit` call reaching its `await`
(starting job `nextJob`), and the fulfilment or rejection of job `j`'s
`uploadToAssemblyAI` promise (carrying `result.utterances`). -/
inductive SubmitEvent where
  | submitStart
  | resolveOk (j : Nat) (us : List Utterance)
  | resolveErr (j : Nat)
  deriving Repr

/-- One step of the submission state machine.  `resolveOk` is the code
after `await uploadToAssemblyAI(file)` fulfils: the result is applied
unconditionally (no current-job check); the `j ∈ inflight` guard only
says the resolution belongs to a submission that started and has not yet
settled.  `resolveErr` is the `catch`/`finally` path. -/
def submitStep (s : AppState) : SubmitEvent → AppState
  | SubmitEvent.submitStart =>
    { s with
      loading := true
      errorShown := false
      inflight := s.inflight ++ [s.nextJob]
      nextJob := s.nextJob + 1 }
  | SubmitEvent.resolveOk j us =>
    if j ∈ s.inflight then
      { s with
        transcription := some us
        speakers := (objectKeys (us.map (·.speaker))).map (fun sp => (sp, ""))
        speakerExcerpts := findSpeakerExcerpts us
        loading := false
        inflight := s.inflight.erase j }
    else s
  | SubmitEvent.resolveErr j =>
    if j ∈ s.inflight then
      { s with
        errorShown := true
        loading := false
        inflight := s.inflight.erase j }
    else s

/-- Run a sequence of submission events. -/
def submitRun (s : AppState) (es : List SubmitEvent) : AppState :=
  es.foldl submitStep s

/-- Component state before any submission. -/
def initApp : AppState :=
  { transcription := none
    speakers := []
    speakerExcerpts := []
    loading := false
    errorShown := false
    inflight := []
    nextJob := 0 }

/-- A "processing" poll response used by concrete scenarios. -/
def procResponse : PollResponse := { status := "processing", utterances := [] }

/-- A "completed" poll response with one utterance, used by concrete
scenarios. -/
def doneResponse : PollResponse :=
  { status := "completed", utterances := [⟨"A", 0, 1000, "hello"⟩] }

/-- An "error" poll response used by concrete scenarios. -/
def errResponse : PollResponse := { status := "error", utterances := [] }

/-- Poll oracle: "processing" for the first 119 queries, then
"completed". -/
def respLateDone : Nat → PollResponse :=
  fun i => if i < 119 then procResponse else doneResponse

/-- Poll oracle: always "processing". -/
def respNeverDone : Nat → PollResponse := fun _ => procResponse

/-- Poll oracle answering "error" to every query. -/
def respErrFirst : Nat → PollResponse := fun _ => errResponse

/-- A network oracle whose upload and transcribe calls succeed and whose
first poll reports "error". -/
def netErrFirst : NetOracle :=
  { uploadOk := true, transcribeOk := true, resp := respErrFirst }

/-- Utterances for the witness of `findSpeakerExcerpts_spec`: the spec's
own example for speaker "A" (durations 1000, 5000, 100, 50) plus one
utterance for speaker "B". -/
def witnessUtterances : List Utterance :=
  [⟨"A", 0, 1000, "u1"⟩, ⟨"A", 0, 5000, "u2"⟩, ⟨"A", 0, 100, "u3"⟩,
   ⟨"A", 0, 50, "u4"⟩, ⟨"B", 10, 20, "u5"⟩]

/-- The controller invariant that holds at every reachable state: the
listeners registered on the audio element are exactly the one stored in
`activeTimeUpdateHandler` (if any); `isPlaying` and `currentAudio` are
set and cleared together; a registered handler only exists while a
session is active; the active handler's closure identity is fresh and
its object URL is still outstanding; and the file stays selected. -/
def PlayerInv (s : PlayerState) : Prop :=
  s.attached = s.activeHandler.toList ∧
  (s.isPlaying = true ↔ s.currentAudio.isSome = true) ∧
  (s.currentAudio = none → s.activeHandler = none) ∧
  (∀ w, s.activeHandler = some w → w.id < s.nextId ∧ w.url ∈ s.urls) ∧
  s.hasFile = true

/-- The result of the first (stale) submission in the counterexample
trace. -/
def firstResult : List Utterance := [⟨"A", 0, 1000, "first"⟩]

/-- The result of the second (current) submission in the counterexample
trace. -/
def secondResult : List Utterance := [⟨"B", 0, 2000, "second"⟩]

/-! Theorems. -/

/-- The loop makes at most `fuel` status queries. -/
theorem pollLoop_queries_le (resp : Nat → PollResponse) :
    ∀ fuel attempts, (pollLoop resp fuel attempts).2 ≤ fuel := by
  intro fuel
  induction fuel with
  | zero => intro a; simp [pollLoop]
  | succ n ih =>
    intro a
    simp only [pollLoop]
    split
    · simp
    · split
      · simp
      · simpa using Nat.succ_le_succ (ih (a + 1))

/-- Skipping a pending (neither "completed" nor "error") prefix: if the
`n` responses starting at `attempts = a` are all pending, the loop walks
past them, making `n` queries on the way. -/
theorem pollLoop_pending_skip (resp : Nat → PollResponse) :
    ∀ (n rest a : Nat),
      (∀ i, i < n →
        (resp (a + i)).status ≠ "completed" ∧ (resp (a + i)).status ≠ "error") →
      pollLoop resp (n + rest) a =
        ((pollLoop resp rest (a + n)).1, (pollLoop resp rest (a + n)).2 + n) := by
  intro n
  induction n with
  | zero => intro rest a _; simp
  | succ m ih =>
    intro rest a hpend
    have h0 := hpend 0 (Nat.succ_pos m)
    rw [Nat.add_zero] at h0
    rw [Nat.succ_add]
    simp only [pollLoop]
    rw [if_neg h0.1, if_neg h0.2]
    have ih' := ih rest (a + 1) (fun i hi => by
      have := hpend (i + 1) (by omega)
      rwa [show a + (i + 1) = a + 1 + i by omega] at this)
    rw [ih']
    rw [show a + 1 + m = a + (m + 1) by omega]
    simp [Nat.add_assoc]

/-- C3: the poll loop queries status at most 120 times; a poll sequence
that is "processing" on the first 119 queries and "completed" on the
120th succeeds with the completed payload after exactly 120 queries; a
sequence that is "processing" on all 120 queries fails with the timeout
error after exactly 120 queries. -/
theorem poll_budget_and_scenarios (apiKey : String)
    (resp late never : Nat → PollResponse) (hk : apiKey ≠ "")
    (hlate : ∀ i, i < 119 → (late i).status = "processing")
    (hdone : (late 119).status = "completed")
    (hnever : ∀ i, i < 120 → (never i).status = "processing") :
    (pollTranscriptionStatus apiKey resp).2 ≤ 120 ∧
    pollTranscriptionStatus apiKey late = (Except.ok (late 119), 120) ∧
    pollTranscriptionStatus apiKey never =
      (Except.error TranscriptionError.timeoutError, 120) := by
  refine ⟨?_, ?_, ?_⟩
  · unfold pollTranscriptionStatus
    split
    · simp
    · exact pollLoop_queries_le resp maxAttempts 0
  · rw [pollTranscriptionStatus, if_neg hk]
    have hskip := pollLoop_pending_skip late 119 1 0 (fun i hi => by
      rw [Nat.zero_add]
      constructor <;> simp [hlate i hi])
    rw [show maxAttempts = 119 + 1 from rfl, hskip]
    rw [Nat.zero_add]
    simp [pollLoop, hdone]
  · rw [pollTranscriptionStatus, if_neg hk]
    have hskip := pollLoop_pending_skip never 120 0 0 (fun i hi => by
      rw [Nat.zero_add]
      constructor <;> simp [hnever i hi])
    rw [show maxAttempts = 120 + 0 from rfl, hskip]
    simp [pollLoop]

/-- Witness for `poll_budget_and_scenarios` at the concrete oracles. -/
theorem poll_budget_and_scenarios_witness :
    ("k" : String) ≠ "" ∧
    (∀ i, i < 119 → (respLateDone i).status = "processing") ∧
    (respLateDone 119).status = "completed" ∧
    (∀ i, i < 120 → (respNeverDone i).status = "processing") ∧
    ((pollTranscriptionStatus "k" respLateDone).2 ≤ 120 ∧
      pollTranscriptionStatus "k" respLateDone = (Except.ok (respLateDone 119), 120) ∧
      pollTranscriptionStatus "k" respNeverDone =
        (Except.error TranscriptionError.timeoutError, 120)) := by
  have h1 : ∀ i, i < 119 → (respLateDone i).status = "processing" := by
    intro i hi; simp [respLateDone, hi, procResponse]
  have h2 : (respLateDone 119).status = "completed" := by
    simp [respLateDone, doneResponse]
  have h3 : ∀ i, i < 120 → (respNeverDone i).status = "processing" := by
    intro i _; simp [respNeverDone, procResponse]
  exact ⟨by decide, h1, h2, h3,
    poll_budget_and_scenarios "k" respLateDone respLateDone respNeverDone
      (by decide) h1 h2 h3⟩

/-- C8: if the provider reports status "error" on the first query, the
orchestrator fails immediately with the remote-processing error, with
exactly one status query; lifted to `uploadToAssemblyAI`, the full call
sequence is upload, transcribe, and the single poll — no further poll
request. -/
theorem poll_error_immediate (apiKey : String) (net : NetOracle)
    (hk : apiKey ≠ "") (hup : net.uploadOk = true) (htr : net.transcribeOk = true)
    (herr : (net.resp 0).status = "error") :
    pollTranscriptionStatus apiKey net.resp =
      (Except.error TranscriptionError.remoteProcessingError, 1) ∧
    uploadToAssemblyAI apiKey net =
      (Except.error TranscriptionError.remoteProcessingError,
        [NetCall.upload, NetCall.transcribe, NetCall.pollStatus 0]) := by
  have hpoll : pollTranscriptionStatus apiKey net.resp =
      (Except.error TranscriptionError.remoteProcessingError, 1) := by
    rw [pollTranscriptionStatus, if_neg hk]
    rw [show maxAttempts = 119 + 1 from rfl]
    simp [pollLoop, herr]
  refine ⟨hpoll, ?_⟩
  rw [uploadToAssemblyAI]
  rw [if_neg hk]
  simp only [hup, htr, Bool.not_true, Bool.false_eq_true, if_false, hpoll]
  rfl

/-- Witness for `poll_error_immediate` at the concrete oracle. -/
theorem poll_error_immediate_witness :
    ("k" : String) ≠ "" ∧ netErrFirst.uploadOk = true ∧
    netErrFirst.transcribeOk = true ∧ (netErrFirst.resp 0).status = "error" ∧
    (pollTranscriptionStatus "k" netErrFirst.resp =
        (Except.error TranscriptionError.remoteProcessingError, 1) ∧
      uploadToAssemblyAI "k" netErrFirst =
        (Except.error TranscriptionError.remoteProcessingError,
          [NetCall.upload, NetCall.transcribe, NetCall.pollStatus 0])) :=
  ⟨by decide, rfl, rfl, rfl,
    poll_error_immediate "k" netErrFirst (by decide) rfl rfl rfl⟩

/-- A key is listed by `objectKeysAux` exactly when it occurs in the
input and has not been emitted before. -/
theorem mem_objectKeysAux (s : String) :
    ∀ (l seen : List String), s ∈ objectKeysAux seen l ↔ s ∉ seen ∧ s ∈ l := by
  intro l
  induction l with
  | nil => intro seen; simp [objectKeysAux]
  | cons a rest ih =>
    intro seen
    simp only [objectKeysAux]
    split
    · next ha =>
      rw [ih]
      constructor
      · rintro ⟨h1, h2⟩
        exact ⟨h1, List.mem_cons_of_mem _ h2⟩
      · rintro ⟨h1, h2⟩
        rcases List.mem_cons.mp h2 with rfl | h2
        · exact absurd ha h1
        · exact ⟨h1, h2⟩
    · next ha =>
      constructor
      · intro h
        rcases List.mem_cons.mp h with rfl | h
        · exact ⟨ha, List.mem_cons_self _ _⟩
        · have h' := (ih (a :: seen)).mp h
          exact ⟨fun hs => h'.1 (List.mem_cons_of_mem _ hs), List.mem_cons_of_mem _ h'.2⟩
      · rintro ⟨h1, h2⟩
        rcases List.mem_cons.mp h2 with rfl | h2
        · exact List.mem_cons_self _ _
        · by_cases hsa : s = a
          · subst hsa; exact List.mem_cons_self _ _
          · exact List.mem_cons_of_mem _
              ((ih (a :: seen)).mpr ⟨by simp [hsa, h1], h2⟩)

/-- The function `objectKeys` lists exactly the keys that occur. -/
theorem mem_objectKeys (s : String) (l : List String) :
    s ∈ objectKeys l ↔ s ∈ l := by
  simp [objectKeys, mem_objectKeysAux]

/-- Looking up a present key in an association list built over a key list
returns the value computed for it. -/
theorem lookup_map_self {α : Type} (f : String → α) :
    ∀ (keys : List String) (s : String), s ∈ keys →
      List.lookup s (keys.map fun k => (k, f k)) = some (f s) := by
  intro keys
  induction keys with
  | nil => intro s hs; simp at hs
  | cons k rest ih =>
    intro s hs
    by_cases h : s = k
    · subst h; simp [List.lookup]
    · have hs' : s ∈ rest := by
        rcases List.mem_cons.mp hs with rfl | hm
        · exact absurd rfl h
        · exact hm
      have hbeq : (s == k) = false := beq_eq_false_iff_ne.mpr h
      simp only [List.map_cons, List.lookup_cons, hbeq]
      exact ih s hs'

/-- Looking up an absent key in such an association list fails. -/
theorem lookup_map_none {α : Type} (f : String → α) :
    ∀ (keys : List String) (s : String), s ∉ keys →
      List.lookup s (keys.map fun k => (k, f k)) = none := by
  intro keys
  induction keys with
  | nil => intro s _; simp
  | cons k rest ih =>
    intro s hs
    have h1 : s ≠ k := fun h => hs (h ▸ List.mem_cons_self _ _)
    have h2 : s ∉ rest := fun h => hs (List.mem_cons_of_mem _ h)
    have hbeq : (s == k) = false := beq_eq_false_iff_ne.mpr h1
    simp only [List.map_cons, List.lookup_cons, hbeq]
    exact ih s h2

/-- Utterances of equal duration are pairwise related by the sort
order, so a constant-duration selection of the group is a sorted sublist. -/
theorem pairwise_excerptLE_filter_duration (l : List Utterance) (d : Int) :
    (l.filter (fun u => duration u == d)).Pairwise excerptLE := by
  apply List.pairwise_of_forall_mem_list
  intro a ha b hb
  have ha' := (List.mem_filter.mp ha).2
  have hb' := (List.mem_filter.mp hb).2
  have ha'' : duration a = d := by simpa using ha'
  have hb'' : duration b = d := by simpa using hb'
  simp [excerptLE, ha'', hb'']

/-- Stability of the per-group sort: the elements of any fixed duration
come out in exactly their original transcript order. -/
theorem insertionSort_filter_duration (l : List Utterance) (d : Int) :
    (List.insertionSort excerptLE l).filter (fun u => duration u == d) =
      l.filter (fun u => duration u == d) := by
  have hsub : List.Sublist (l.filter (fun u => duration u == d))
      (List.insertionSort excerptLE l) :=
    List.sublist_insertionSort (pairwise_excerptLE_filter_duration l d)
      (List.filter_sublist l)
  have hsub2 : List.Sublist (l.filter (fun u => duration u == d))
      ((List.insertionSort excerptLE l).filter (fun u => duration u == d)) := by
    have := hsub.filter (fun u => duration u == d)
    simpa using this
  have hperm : List.Perm
      ((List.insertionSort excerptLE l).filter (fun u => duration u == d))
      (l.filter (fun u => duration u == d)) :=
    (List.perm_insertionSort excerptLE l).filter _
  exact (hsub2.eq_of_length hperm.length_eq.symm).symm

/-- C2: for every utterance sequence and every speaker occurring in it,
`findSpeakerExcerpts` maps that speaker to at most 3 of that speaker's
own utterances, sorted by non-increasing duration, with utterances of
equal duration kept in original transcript order (stability of the
sort); a speaker with no utterances does not appear as a key. -/
theorem findSpeakerExcerpts_spec (us : List Utterance) (s t : String)
    (hocc : s ∈ us.map (·.speaker)) (htnot : t ∉ us.map (·.speaker)) :
    List.lookup s (findSpeakerExcerpts us) = some (selectedExcerpts us s) ∧
    (selectedExcerpts us s).length ≤ 3 ∧
    (∀ u ∈ selectedExcerpts us s, u.speaker = s ∧ u ∈ us) ∧
    (selectedExcerpts us s).Pairwise (fun a b => duration b ≤ duration a) ∧
    (∀ d : Int,
      List.Sublist ((selectedExcerpts us s).filter (fun u => duration u == d))
        ((speakerGroup us s).filter (fun u => duration u == d))) ∧
    List.lookup t (findSpeakerExcerpts us) = none := by
  refine ⟨?_, ?_, ?_, ?_, ?_, ?_⟩
  · exact lookup_map_self _ _ s ((mem_objectKeys s _).mpr hocc)
  · simp [selectedExcerpts]
  · intro u hu
    have h1 : u ∈ List.insertionSort excerptLE (speakerGroup us s) :=
      (List.take_sublist 3 _).mem hu
    have h2 : u ∈ speakerGroup us s := (List.mem_insertionSort _).mp h1
    have h3 := List.mem_filter.mp h2
    exact ⟨by simpa using h3.2, h3.1⟩
  · have hs : (List.insertionSort excerptLE (speakerGroup us s)).Pairwise excerptLE :=
      List.sorted_insertionSort excerptLE _
    exact (List.Pairwise.sublist (List.take_sublist 3 _) hs).imp (fun h => h)
  · intro d
    have hst := insertionSort_filter_duration (speakerGroup us s) d
    have := (List.take_sublist 3
      (List.insertionSort excerptLE (speakerGroup us s))).filter
        (fun u => duration u == d)
    rw [hst] at this
    simpa [selectedExcerpts] using this
  · exact lookup_map_none _ _ t (fun h => htnot ((mem_objectKeys t _).mp h))

/-- Witness for `findSpeakerExcerpts_spec` at the concrete transcript. -/
theorem findSpeakerExcerpts_spec_witness :
    ("A" : String) ∈ witnessUtterances.map (·.speaker) ∧
    ("C" : String) ∉ witnessUtterances.map (·.speaker) ∧
    (List.lookup "A" (findSpeakerExcerpts witnessUtterances) =
        some (selectedExcerpts witnessUtterances "A") ∧
      (selectedExcerpts witnessUtterances "A").length ≤ 3 ∧
      (∀ u ∈ selectedExcerpts witnessUtterances "A",
        u.speaker = "A" ∧ u ∈ witnessUtterances) ∧
      (selectedExcerpts witnessUtterances "A").Pairwise
        (fun a b => duration b ≤ duration a) ∧
      (∀ d : Int,
        List.Sublist
          ((selectedExcerpts witnessUtterances "A").filter (fun u => duration u == d))
          ((speakerGroup witnessUtterances "A").filter (fun u => duration u == d))) ∧
      List.lookup "C" (findSpeakerExcerpts witnessUtterances) = none) :=
  ⟨by decide, by decide,
    findSpeakerExcerpts_spec witnessUtterances "A" "C" (by decide) (by decide)⟩

/-- C9: a submission with empty (missing) credentials fails with the auth
error before any network call: `uploadToAssemblyAI` issues no upload,
transcribe, or poll request, whatever the network would have answered. -/
theorem submit_empty_credentials_auth (net : NetOracle) :
    uploadToAssemblyAI "" net = (Except.error TranscriptionError.authError, []) := by
  rw [uploadToAssemblyAI, if_pos rfl]

/-! Playback controller invariant. -/

@[simp] theorem stopCurrentPlayback_isPlaying (s : PlayerState) :
    (stopCurrentPlayback s).isPlaying = false := rfl

@[simp] theorem stopCurrentPlayback_currentAudio (s : PlayerState) :
    (stopCurrentPlayback s).currentAudio = none := rfl

@[simp] theorem stopCurrentPlayback_activeHandler (s : PlayerState) :
    (stopCurrentPlayback s).activeHandler = none := rfl

@[simp] theorem stopCurrentPlayback_urls (s : PlayerState) :
    (stopCurrentPlayback s).urls = s.urls := rfl

@[simp] theorem stopCurrentPlayback_nextId (s : PlayerState) :
    (stopCurrentPlayback s).nextId = s.nextId := rfl

@[simp] theorem stopCurrentPlayback_hasFile (s : PlayerState) :
    (stopCurrentPlayback s).hasFile = s.hasFile := rfl

@[simp] theorem stopCurrentPlayback_audioTime (s : PlayerState) :
    (stopCurrentPlayback s).audioTime = s.audioTime := rfl

/-- After `stopCurrentPlayback`, no listener remains registered. -/
theorem stopCurrentPlayback_attached {s : PlayerState}
    (h1 : s.attached = s.activeHandler.toList) :
    (stopCurrentPlayback s).attached = [] := by
  cases hA : s.activeHandler with
  | none => simp [stopCurrentPlayback, hA, h1]
  | some w => simp [stopCurrentPlayback, hA, h1]

/-- The stop `stopCurrentPlayback` re-establishes the invariant from its first
conjunct alone. -/
theorem stopCurrentPlayback_inv {s : PlayerState}
    (h1 : s.attached = s.activeHandler.toList) (h5 : s.hasFile = true) :
    PlayerInv (stopCurrentPlayback s) := by
  refine ⟨?_, by simp, fun _ => rfl, ?_, by simpa using h5⟩
  · rw [stopCurrentPlayback_attached h1]; rfl
  · intro w hw; exact absurd hw (by simp)

/-- The call `playAudioExcerpt` preserves the invariant. -/
theorem playAudioExcerpt_inv {s : PlayerState} (h : PlayerInv s)
    (a b : Int) (ok : Bool) : PlayerInv (playAudioExcerpt s a b ok) := by
  obtain ⟨h1, h2, h3, h4, h5⟩ := h
  unfold playAudioExcerpt
  rw [h5]
  simp only [Bool.not_true, Bool.false_eq_true, if_false]
  split
  · exact stopCurrentPlayback_inv h1 h5
  · have hstop := stopCurrentPlayback_attached h1
    cases ok with
    | true =>
      simp only [if_true]
      refine ⟨?_, by simp, ?_, ?_, by simpa using h5⟩
      · simp [hstop]
      · intro hc; exact absurd hc (by simp)
      · intro w hw
        simp only [Option.some.injEq] at hw
        subst hw
        exact ⟨by simp, by simp⟩
    | false =>
      simp only [Bool.false_eq_true, if_false]
      apply stopCurrentPlayback_inv
      · simp [hstop]
      · simpa using h5

/-- Invoking one listener preserves the invariant. -/
theorem fireWatcher_inv {t : PlayerState} (w : Watcher)
    (h1 : t.attached = t.activeHandler.toList)
    (h2 : t.isPlaying = true ↔ t.currentAudio.isSome = true)
    (h3 : t.currentAudio = none → t.activeHandler = none)
    (h4 : ∀ w', t.activeHandler = some w' → w'.id < t.nextId ∧ w'.url ∈ t.urls)
    (h5 : t.hasFile = true) :
    PlayerInv (fireWatcher t w) := by
  unfold fireWatcher
  split
  · split
    · refine ⟨?_, by simp, fun _ => rfl, ?_, by simpa using h5⟩
      · simp [stopCurrentPlayback_attached h1]
      · intro w' hw'
        exact absurd hw' (by simp)
    · exact ⟨h1, h2, h3, h4, h5⟩
  · exact ⟨h1, h2, h3, h4, h5⟩

/-- The dispatch `dispatchTimeUpdate` preserves the invariant. -/
theorem dispatchTimeUpdate_inv {s : PlayerState} (h : PlayerInv s)
    (pos : ℚ) : PlayerInv (dispatchTimeUpdate s pos) := by
  obtain ⟨h1, h2, h3, h4, h5⟩ := h
  unfold dispatchTimeUpdate
  cases hA : s.activeHandler with
  | none =>
    have hatt : s.attached = [] := by rw [h1, hA]; rfl
    simp only [hatt, List.foldl_nil]
    refine ⟨by simp, h2, fun _ => rfl, ?_, h5⟩
    intro w hw
    exact absurd hw (by simp)
  | some w =>
    have hatt : s.attached = [w] := by rw [h1, hA]; rfl
    simp only [hatt, List.foldl_cons, List.foldl_nil]
    apply fireWatcher_inv
    · simp
    · exact h2
    · intro hc
      have hnone := h3 hc
      rw [hA] at hnone
      exact hnone
    · intro w' hw'
      cases hw'
      exact h4 w hA
    · exact h5

/-- Every controller step preserves the invariant. -/
theorem playerStep_inv {s : PlayerState} (h : PlayerInv s) :
    ∀ e, PlayerInv (playerStep s e)
  | PlayerEvent.play a b ok => playAudioExcerpt_inv h a b ok
  | PlayerEvent.timeupdate pos => dispatchTimeUpdate_inv h pos
  | PlayerEvent.stop => stopCurrentPlayback_inv h.1 h.2.2.2.2

/-- Running any event sequence preserves the invariant. -/
theorem playerRun_inv : ∀ (es : List PlayerEvent) (s : PlayerState),
    PlayerInv s → PlayerInv (playerRun s es)
  | [], _, h => h
  | e :: es, s, h => playerRun_inv es (playerStep s e) (playerStep_inv h e)

/-- The initial state satisfies the invariant. -/
theorem initPlayer_inv : PlayerInv initPlayer := by
  refine ⟨rfl, by simp [initPlayer], fun _ => rfl, ?_, rfl⟩
  intro w hw
  exact absurd hw (by simp [initPlayer])

/-- Every reachable controller state satisfies the invariant. -/
theorem reachable_inv {s : PlayerState} (h : PlayerReachable s) :
    PlayerInv s := by
  obtain ⟨es, rfl⟩ := h
  exact playerRun_inv es initPlayer initPlayer_inv

/-- A `playAudioExcerpt` call leaves either no listener (toggle-off or
rejected `play()`) or exactly the one fresh listener it registered. -/
theorem playAudioExcerpt_attached_cases {s : PlayerState} (h : PlayerInv s)
    (a b : Int) (ok : Bool) :
    (playAudioExcerpt s a b ok).attached = [] ∨
    (playAudioExcerpt s a b ok).attached = [⟨b, s.nextId, s.nextId⟩] := by
  obtain ⟨h1, h2, h3, h4, h5⟩ := h
  have hstop := stopCurrentPlayback_attached h1
  unfold playAudioExcerpt
  rw [h5]
  simp only [Bool.not_true, Bool.false_eq_true, if_false]
  split
  · exact Or.inl hstop
  · cases ok with
    | true =>
      simp only [if_true]
      right
      simp [hstop]
    | false =>
      simp only [Bool.false_eq_true, if_false]
      left
      rw [show ∀ t : PlayerState, (stopCurrentPlayback t).attached =
        match t.activeHandler with
        | some w => t.attached.erase w
        | none => t.attached from fun _ => rfl]
      simp [hstop]

/-- C4: at every reachable controller state at most one playback session
is active: the audio element carries at most one boundary listener, a
state with no current session carries none, and the observable is the
single `(currentAudio, isPlaying)` pair, whose components are set and
cleared together.  Moreover any `playAudioExcerpt` call stops the active
session first: no listener of the pre-call state survives the call, and
the post-call state again carries at most one listener. -/
theorem player_single_session (s : PlayerState) (hs : PlayerReachable s)
    (a b : Int) (ok : Bool) :
    s.attached.length ≤ 1 ∧
    (s.currentAudio = none → s.attached = []) ∧
    (s.isPlaying = true ↔ s.currentAudio.isSome = true) ∧
    (∀ w ∈ s.attached, w ∉ (playerStep s (PlayerEvent.play a b ok)).attached) ∧
    (playerStep s (PlayerEvent.play a b ok)).attached.length ≤ 1 := by
  have hinv := reachable_inv hs
  obtain ⟨h1, h2, h3, h4, h5⟩ := hinv
  refine ⟨?_, ?_, h2, ?_, ?_⟩
  · rw [h1]; cases s.activeHandler <;> simp
  · intro hc; rw [h1, h3 hc]; rfl
  · intro w hw
    have hid : w.id < s.nextId := by
      rw [h1] at hw
      cases hA : s.activeHandler with
      | none => rw [hA] at hw; exact absurd hw (by simp)
      | some w0 =>
        rw [hA] at hw
        simp only [Option.toList_some, List.mem_singleton] at hw
        subst hw
        exact (h4 w hA).1
    rcases playAudioExcerpt_attached_cases ⟨h1, h2, h3, h4, h5⟩ a b ok with hc | hc
    · show w ∉ (playAudioExcerpt s a b ok).attached
      rw [hc]; simp
    · show w ∉ (playAudioExcerpt s a b ok).attached
      rw [hc]
      simp only [List.mem_singleton]
      intro hww
      rw [hww] at hid
      exact absurd hid (by simp)
  · rcases playAudioExcerpt_attached_cases ⟨h1, h2, h3, h4, h5⟩ a b ok with hc | hc <;>
      · show (playAudioExcerpt s a b ok).attached.length ≤ 1
        rw [hc]; simp

/-- Witness for `player_single_session`: the state after one successful
`play(1000, 5000)` followed by another `play` call for a different
range. -/
theorem player_single_session_witness :
    PlayerReachable (playerRun initPlayer [PlayerEvent.play 1000 5000 true]) ∧
    ((playerRun initPlayer [PlayerEvent.play 1000 5000 true]).attached.length ≤ 1 ∧
      ((playerRun initPlayer [PlayerEvent.play 1000 5000 true]).currentAudio = none →
        (playerRun initPlayer [PlayerEvent.play 1000 5000 true]).attached = []) ∧
      ((playerRun initPlayer [PlayerEvent.play 1000 5000 true]).isPlaying = true ↔
        (playerRun initPlayer [PlayerEvent.play 1000 5000 true]).currentAudio.isSome = true) ∧
      (∀ w ∈ (playerRun initPlayer [PlayerEvent.play 1000 5000 true]).attached,
        w ∉ (playerStep (playerRun initPlayer [PlayerEvent.play 1000 5000 true])
          (PlayerEvent.play 2000 6000 true)).attached) ∧
      (playerStep (playerRun initPlayer [PlayerEvent.play 1000 5000 true])
        (PlayerEvent.play 2000 6000 true)).attached.length ≤ 1) :=
  ⟨⟨[PlayerEvent.play 1000 5000 true], rfl⟩,
    player_single_session _ ⟨[PlayerEvent.play 1000 5000 true], rfl⟩ 2000 6000 true⟩

/-- C6: a `playAudioExcerpt` call for the range of the currently active
session stops it and starts no new session: afterwards nothing is
playing, no session is current, and no listener remains registered. -/
theorem player_toggle_off (s : PlayerState) (hs : PlayerReachable s)
    (a b : Int) (ok : Bool) (hcur : s.currentAudio = some (rangeKey a b)) :
    (playerStep s (PlayerEvent.play a b ok)).currentAudio = none ∧
    (playerStep s (PlayerEvent.play a b ok)).isPlaying = false ∧
    (playerStep s (PlayerEvent.play a b ok)).attached = [] ∧
    (playerStep s (PlayerEvent.play a b ok)).activeHandler = none := by
  obtain ⟨h1, h2, h3, h4, h5⟩ := reachable_inv hs
  have hstep : playerStep s (PlayerEvent.play a b ok) = stopCurrentPlayback s := by
    show playAudioExcerpt s a b ok = stopCurrentPlayback s
    unfold playAudioExcerpt
    rw [h5]
    simp only [Bool.not_true, Bool.false_eq_true, if_false]
    rw [if_pos hcur]
  rw [hstep]
  exact ⟨rfl, rfl, stopCurrentPlayback_attached h1, rfl⟩

/-- Witness for `player_toggle_off`: `play(1000, 5000)` twice in a row. -/
theorem player_toggle_off_witness :
    PlayerReachable (playerRun initPlayer [PlayerEvent.play 1000 5000 true]) ∧
    (playerRun initPlayer [PlayerEvent.play 1000 5000 true]).currentAudio =
      some (rangeKey 1000 5000) ∧
    ((playerStep (playerRun initPlayer [PlayerEvent.play 1000 5000 true])
        (PlayerEvent.play 1000 5000 true)).currentAudio = none ∧
      (playerStep (playerRun initPlayer [PlayerEvent.play 1000 5000 true])
        (PlayerEvent.play 1000 5000 true)).isPlaying = false ∧
      (playerStep (playerRun initPlayer [PlayerEvent.play 1000 5000 true])
        (PlayerEvent.play 1000 5000 true)).attached = [] ∧
      (playerStep (playerRun initPlayer [PlayerEvent.play 1000 5000 true])
        (PlayerEvent.play 1000 5000 true)).activeHandler = none) :=
  ⟨⟨[PlayerEvent.play 1000 5000 true], rfl⟩, rfl,
    player_toggle_off _ ⟨[PlayerEvent.play 1000 5000 true], rfl⟩ 1000 5000 true rfl⟩

/-- A listener that is registered and whose boundary condition holds
stops the session: playback halts, the listener is detached, the ref is
cleared and its object URL is revoked. -/
theorem fireWatcher_fires {t : PlayerState} {w : Watcher}
    (hmem : w ∈ t.attached) (hge : t.audioTime ≥ (w.endMs : ℚ) / 1000)
    (h1 : t.attached = t.activeHandler.toList) :
    (fireWatcher t w).isPlaying = false ∧
    (fireWatcher t w).currentAudio = none ∧
    (fireWatcher t w).attached = [] ∧
    (fireWatcher t w).activeHandler = none ∧
    w.url ∉ (fireWatcher t w).urls := by
  unfold fireWatcher
  rw [if_pos hmem, if_pos hge]
  refine ⟨rfl, rfl, ?_, rfl, ?_⟩
  · simpa using stopCurrentPlayback_attached h1
  · simp [List.mem_filter]

/-- A `timeupdate` with no registered listener only records the new
position. -/
theorem dispatchTimeUpdate_no_watchers {t : PlayerState}
    (h : t.attached = []) (p : ℚ) :
    dispatchTimeUpdate t p = { t with audioTime := p } := by
  unfold dispatchTimeUpdate
  simp only [h, List.foldl_nil]

/-- On a reachable state whose active handler is `w`, a position
notification dispatches exactly `w`'s closure. -/
theorem dispatchTimeUpdate_active {s : PlayerState} {w : Watcher}
    (h1 : s.attached = s.activeHandler.toList)
    (hw : s.activeHandler = some w) (pos : ℚ) :
    dispatchTimeUpdate s pos = fireWatcher { s with audioTime := pos } w := by
  have hatt : s.attached = [w] := by rw [h1, hw]; rfl
  unfold dispatchTimeUpdate
  simp only [hatt, List.foldl_cons, List.foldl_nil]

/-- C7: when the observed playback position reaches or passes the active
session's end, that position notification stops the session exactly
once — playback halts, the boundary listener is detached, the ref is
cleared, and the session's object URL is revoked — and a later position
notification is not processed for that session: it changes nothing but
the element's recorded position. -/
theorem player_boundary_stop (s : PlayerState) (hs : PlayerReachable s)
    (w : Watcher) (hw : s.activeHandler = some w) (pos : ℚ)
    (hpos : pos ≥ (w.endMs : ℚ) / 1000) :
    ((playerStep s (PlayerEvent.timeupdate pos)).isPlaying = false ∧
      (playerStep s (PlayerEvent.timeupdate pos)).currentAudio = none ∧
      (playerStep s (PlayerEvent.timeupdate pos)).attached = [] ∧
      (playerStep s (PlayerEvent.timeupdate pos)).activeHandler = none ∧
      w.url ∉ (playerStep s (PlayerEvent.timeupdate pos)).urls) ∧
    (∀ pos2 : ℚ,
      playerStep (playerStep s (PlayerEvent.timeupdate pos))
          (PlayerEvent.timeupdate pos2) =
        { playerStep s (PlayerEvent.timeupdate pos) with audioTime := pos2 }) := by
  obtain ⟨h1, h2, h3, h4, h5⟩ := reachable_inv hs
  have hstep : playerStep s (PlayerEvent.timeupdate pos) =
      fireWatcher { s with audioTime := pos } w :=
    dispatchTimeUpdate_active h1 hw pos
  have hatt : s.attached = [w] := by rw [h1, hw]; rfl
  have hfired := fireWatcher_fires (t := { s with audioTime := pos })
    (w := w) (by simp [hatt]) hpos h1
  constructor
  · rw [hstep]
    exact hfired
  · intro pos2
    rw [hstep]
    exact dispatchTimeUpdate_no_watchers hfired.2.2.1 pos2

/-- Witness for `player_boundary_stop`: after `play(1000, 5000)` the
active watcher ends at 5000 ms; a notification at position 5 s stops the
session. -/
theorem player_boundary_stop_witness :
    PlayerReachable (playerRun initPlayer [PlayerEvent.play 1000 5000 true]) ∧
    (playerRun initPlayer [PlayerEvent.play 1000 5000 true]).activeHandler =
      some ⟨5000, 0, 0⟩ ∧
    (5 : ℚ) ≥ ((5000 : Int) : ℚ) / 1000 ∧
    (((playerStep (playerRun initPlayer [PlayerEvent.play 1000 5000 true])
        (PlayerEvent.timeupdate 5)).isPlaying = false ∧
      (playerStep (playerRun initPlayer [PlayerEvent.play 1000 5000 true])
        (PlayerEvent.timeupdate 5)).currentAudio = none ∧
      (playerStep (playerRun initPlayer [PlayerEvent.play 1000 5000 true])
        (PlayerEvent.timeupdate 5)).attached = [] ∧
      (playerStep (playerRun initPlayer [PlayerEvent.play 1000 5000 true])
        (PlayerEvent.timeupdate 5)).activeHandler = none ∧
      (⟨5000, 0, 0⟩ : Watcher).url ∉
        (playerStep (playerRun initPlayer [PlayerEvent.play 1000 5000 true])
          (PlayerEvent.timeupdate 5)).urls) ∧
    (∀ pos2 : ℚ,
      playerStep (playerStep (playerRun initPlayer [PlayerEvent.play 1000 5000 true])
          (PlayerEvent.timeupdate 5)) (PlayerEvent.timeupdate pos2) =
        { playerStep (playerRun initPlayer [PlayerEvent.play 1000 5000 true])
            (PlayerEvent.timeupdate 5) with audioTime := pos2 })) :=
  ⟨⟨[PlayerEvent.play 1000 5000 true], rfl⟩, rfl, by norm_num,
    player_boundary_stop _ ⟨[PlayerEvent.play 1000 5000 true], rfl⟩
      ⟨5000, 0, 0⟩ rfl 5 (by norm_num)⟩

/-- A non-toggle `playAudioExcerpt` whose `play()` fulfils starts a
session: playing, keyed by the range, seeked to `start / 1000`, with a
fresh boundary listener for `end`. -/
theorem playAudioExcerpt_starts {s : PlayerState}
    (h5 : s.hasFile = true) (a b : Int)
    (hcur : s.currentAudio ≠ some (rangeKey a b)) :
    (playAudioExcerpt s a b true).isPlaying = true ∧
    (playAudioExcerpt s a b true).currentAudio = some (rangeKey a b) ∧
    (playAudioExcerpt s a b true).audioTime = (a : ℚ) / 1000 ∧
    (playAudioExcerpt s a b true).activeHandler = some ⟨b, s.nextId, s.nextId⟩ := by
  unfold playAudioExcerpt
  rw [h5]
  simp only [Bool.not_true, Bool.false_eq_true, if_false]
  rw [if_neg hcur]
  exact ⟨rfl, rfl, rfl, rfl⟩

/-- C10: a `playAudioExcerpt` call with `end ≤ start` that successfully
starts a session seeks to `start / 1000`, where the boundary condition
`position ≥ end / 1000` already holds, so the session is stopped at the
very first position notification (any position at or after the seek
point): a degenerate or inverted range never plays a positive-length
window. -/
theorem player_degenerate_range (s : PlayerState) (hs : PlayerReachable s)
    (a b : Int) (hba : b ≤ a) (hcur : s.currentAudio ≠ some (rangeKey a b))
    (pos : ℚ) (hpos : pos ≥ (a : ℚ) / 1000) :
    ((playerStep s (PlayerEvent.play a b true)).isPlaying = true ∧
      (playerStep s (PlayerEvent.play a b true)).audioTime = (a : ℚ) / 1000 ∧
      (playerStep s (PlayerEvent.play a b true)).audioTime ≥ (b : ℚ) / 1000) ∧
    ((playerStep (playerStep s (PlayerEvent.play a b true))
        (PlayerEvent.timeupdate pos)).isPlaying = false ∧
      (playerStep (playerStep s (PlayerEvent.play a b true))
        (PlayerEvent.timeupdate pos)).currentAudio = none ∧
      (playerStep (playerStep s (PlayerEvent.play a b true))
        (PlayerEvent.timeupdate pos)).attached = []) := by
  have hinv := reachable_inv hs
  have h5 := hinv.2.2.2.2
  have hstart := playAudioExcerpt_starts h5 a b hcur
  have hdiv : (b : ℚ) / 1000 ≤ (a : ℚ) / 1000 :=
    div_le_div_of_nonneg_right (by exact_mod_cast hba) (by norm_num)
  have hinv2 : PlayerInv (playAudioExcerpt s a b true) :=
    playAudioExcerpt_inv hinv a b true
  have hw2 := hstart.2.2.2
  refine ⟨⟨hstart.1, hstart.2.2.1, ?_⟩, ?_⟩
  · show (playAudioExcerpt s a b true).audioTime ≥ (b : ℚ) / 1000
    rw [hstart.2.2.1]; exact hdiv
  · have hstep : playerStep (playerStep s (PlayerEvent.play a b true))
        (PlayerEvent.timeupdate pos) =
        fireWatcher { playAudioExcerpt s a b true with audioTime := pos }
          ⟨b, s.nextId, s.nextId⟩ :=
      dispatchTimeUpdate_active hinv2.1 hw2 pos
    have hatt2 : (playAudioExcerpt s a b true).attached = [⟨b, s.nextId, s.nextId⟩] := by
      rw [hinv2.1, hw2]; rfl
    have hfired := fireWatcher_fires
      (t := { playAudioExcerpt s a b true with audioTime := pos })
      (w := ⟨b, s.nextId, s.nextId⟩) (by simp [hatt2])
      (le_trans hdiv hpos) hinv2.1
    rw [hstep]
    exact ⟨hfired.1, hfired.2.1, hfired.2.2.1⟩

/-- Witness for `player_degenerate_range`: `play(1000, 500)` (an inverted
range) from the initial state, with the first notification at the seek
point, position 1 s. -/
theorem player_degenerate_range_witness :
    PlayerReachable initPlayer ∧ (500 : Int) ≤ 1000 ∧
    initPlayer.currentAudio ≠ some (rangeKey 1000 500) ∧
    (1 : ℚ) ≥ ((1000 : Int) : ℚ) / 1000 ∧
    (((playerStep initPlayer (PlayerEvent.play 1000 500 true)).isPlaying = true ∧
      (playerStep initPlayer (PlayerEvent.play 1000 500 true)).audioTime =
        ((1000 : Int) : ℚ) / 1000 ∧
      (playerStep initPlayer (PlayerEvent.play 1000 500 true)).audioTime ≥
        ((500 : Int) : ℚ) / 1000) ∧
    ((playerStep (playerStep initPlayer (PlayerEvent.play 1000 500 true))
        (PlayerEvent.timeupdate 1)).isPlaying = false ∧
      (playerStep (playerStep initPlayer (PlayerEvent.play 1000 500 true))
        (PlayerEvent.timeupdate 1)).currentAudio = none ∧
      (playerStep (playerStep initPlayer (PlayerEvent.play 1000 500 true))
        (PlayerEvent.timeupdate 1)).attached = [])) :=
  ⟨⟨[], rfl⟩, by decide, by simp [initPlayer], by norm_num,
    player_degenerate_range initPlayer ⟨[], rfl⟩ 1000 500 (by decide)
      (by simp [initPlayer]) 1 (by norm_num)⟩

/-- C5 counterexample: after `play(1000, 5000)` — whose session holds
object URL 0 — is superseded by `play(2000, 6000)`, the first session
has ended (only the second range is current, with its own watcher and
URL 1), yet object URL 0 is still outstanding: `stopCurrentPlayback`
never calls `URL.revokeObjectURL`, so a session ended by a superseding
play (likewise an explicit stop or a rejected `play()`) does not release
its temporary resource, contradicting the claim at this input. -/
theorem player_release_counterexample :
    (playerRun initPlayer [PlayerEvent.play 1000 5000 true]).activeHandler =
      some ⟨5000, 0, 0⟩ ∧
    (playerRun initPlayer
        [PlayerEvent.play 1000 5000 true,
          PlayerEvent.play 2000 6000 true]).currentAudio =
      some (rangeKey 2000 6000) ∧
    (playerRun initPlayer
        [PlayerEvent.play 1000 5000 true,
          PlayerEvent.play 2000 6000 true]).activeHandler =
      some ⟨6000, 1, 1⟩ ∧
    (0 : Nat) ∈ (playerRun initPlayer
        [PlayerEvent.play 1000 5000 true,
          PlayerEvent.play 2000 6000 true]).urls := by
  refine ⟨rfl, rfl, rfl, ?_⟩
  show (0 : Nat) ∈ [0, 1]
  simp

/-- The call `playAudioExcerpt` never revokes an object URL that was outstanding
before the call (in particular not the superseded session's, and the
`catch` path does not revoke either). -/
theorem playAudioExcerpt_urls_mono {s : PlayerState} (h5 : s.hasFile = true)
    (a b : Int) (ok : Bool) {u : Nat} (hu : u ∈ s.urls) :
    u ∈ (playAudioExcerpt s a b ok).urls := by
  unfold playAudioExcerpt
  rw [h5]
  simp only [Bool.not_true, Bool.false_eq_true, if_false]
  split
  · simpa using hu
  · cases ok with
    | true =>
      simp only [if_true]
      simp [hu]
    | false =>
      simp only [Bool.false_eq_true, if_false]
      simp [hu]

/-- C5 amended: whenever the session with active watcher `w` ends, the
boundary watcher is detached, on every end path — a boundary
notification leaves no registered listener, an explicit
`stopCurrentPlayback` leaves no registered listener, and any
`playAudioExcerpt` call (superseding a different range, toggling the
same range, or failing in `play()`) removes `w` from the element; in
addition, after any event a state with no current session has no
registered listener and no stored handler.  The session's temporary
object URL, however, is released only when the session ends by reaching
the range boundary: the boundary notification revokes the fired
watcher's URL, while an explicit `stopCurrentPlayback` leaves every
outstanding URL untouched and a superseding or failing `playAudioExcerpt`
call keeps all previously outstanding URLs as well. -/
theorem player_end_paths (s : PlayerState) (hs : PlayerReachable s)
    (e : PlayerEvent) (w : Watcher) (hw : s.activeHandler = some w)
    (pos : ℚ) (hpos : pos ≥ (w.endMs : ℚ) / 1000) (a b : Int) (ok : Bool) :
    ((playerStep s (PlayerEvent.timeupdate pos)).attached = [] ∧
      w.url ∉ (playerStep s (PlayerEvent.timeupdate pos)).urls) ∧
    ((playerStep s PlayerEvent.stop).attached = [] ∧
      (playerStep s PlayerEvent.stop).urls = s.urls) ∧
    (w ∉ (playerStep s (PlayerEvent.play a b ok)).attached ∧
      w.url ∈ (playerStep s (PlayerEvent.play a b ok)).urls) ∧
    ((playerStep s e).currentAudio = none →
      (playerStep s e).attached = [] ∧ (playerStep s e).activeHandler = none) := by
  have hinv := reachable_inv hs
  have hinv' := playerStep_inv hinv e
  obtain ⟨h1, h2, h3, h4, h5⟩ := hinv
  have hatt : s.attached = [w] := by rw [h1, hw]; rfl
  have hstep : playerStep s (PlayerEvent.timeupdate pos) =
      fireWatcher { s with audioTime := pos } w :=
    dispatchTimeUpdate_active h1 hw pos
  have hfired := fireWatcher_fires (t := { s with audioTime := pos })
    (w := w) (by simp [hatt]) hpos h1
  refine ⟨⟨?_, ?_⟩, ⟨stopCurrentPlayback_attached h1, rfl⟩, ⟨?_, ?_⟩, ?_⟩
  · rw [hstep]
    exact hfired.2.2.1
  · rw [hstep]
    exact hfired.2.2.2.2
  · have hid : w.id < s.nextId := (h4 w hw).1
    rcases playAudioExcerpt_attached_cases ⟨h1, h2, h3, h4, h5⟩ a b ok with hc | hc
    · show w ∉ (playAudioExcerpt s a b ok).attached
      rw [hc]; simp
    · show w ∉ (playAudioExcerpt s a b ok).attached
      rw [hc]
      simp only [List.mem_singleton]
      intro hww
      rw [hww] at hid
      exact absurd hid (by simp)
  · exact playAudioExcerpt_urls_mono h5 a b ok (h4 w hw).2
  · intro hc
    exact ⟨by rw [hinv'.1, hinv'.2.2.1 hc]; rfl, hinv'.2.2.1 hc⟩

/-- Witness for `player_end_paths` after `play(1000, 5000)`, with the
boundary notification at 5 s and a superseding `play(2000, 6000)`. -/
theorem player_end_paths_witness :
    PlayerReachable (playerRun initPlayer [PlayerEvent.play 1000 5000 true]) ∧
    (playerRun initPlayer [PlayerEvent.play 1000 5000 true]).activeHandler =
      some ⟨5000, 0, 0⟩ ∧
    (5 : ℚ) ≥ ((5000 : Int) : ℚ) / 1000 ∧
    (((playerStep (playerRun initPlayer [PlayerEvent.play 1000 5000 true])
          (PlayerEvent.timeupdate 5)).attached = [] ∧
      (⟨5000, 0, 0⟩ : Watcher).url ∉
        (playerStep (playerRun initPlayer [PlayerEvent.play 1000 5000 true])
          (PlayerEvent.timeupdate 5)).urls) ∧
    ((playerStep (playerRun initPlayer [PlayerEvent.play 1000 5000 true])
          PlayerEvent.stop).attached = [] ∧
      (playerStep (playerRun initPlayer [PlayerEvent.play 1000 5000 true])
          PlayerEvent.stop).urls =
        (playerRun initPlayer [PlayerEvent.play 1000 5000 true]).urls) ∧
    ((⟨5000, 0, 0⟩ : Watcher) ∉
        (playerStep (playerRun initPlayer [PlayerEvent.play 1000 5000 true])
          (PlayerEvent.play 2000 6000 true)).attached ∧
      (⟨5000, 0, 0⟩ : Watcher).url ∈
        (playerStep (playerRun initPlayer [PlayerEvent.play 1000 5000 true])
          (PlayerEvent.play 2000 6000 true)).urls) ∧
    ((playerStep (playerRun initPlayer [PlayerEvent.play 1000 5000 true])
        PlayerEvent.stop).currentAudio = none →
      (playerStep (playerRun initPlayer [PlayerEvent.play 1000 5000 true])
        PlayerEvent.stop).attached = [] ∧
      (playerStep (playerRun initPlayer [PlayerEvent.play 1000 5000 true])
        PlayerEvent.stop).activeHandler = none)) :=
  ⟨⟨[PlayerEvent.play 1000 5000 true], rfl⟩, rfl, by norm_num,
    player_end_paths _ ⟨[PlayerEvent.play 1000 5000 true], rfl⟩
      PlayerEvent.stop ⟨5000, 0, 0⟩ rfl 5 (by norm_num) 2000 6000 true⟩

/-- C1 counterexample: submission 0 starts, submission 1 starts (so job 1
is now the current job), job 1's promise fulfils and its result is
applied — and then job 0's stale promise fulfils and its result is
applied as well, overwriting the current job's: the final transcription
is the stale job 0's, although the two results differ.  There is no
current-job marker in `handleSubmit` to discard the stale resolution,
contradicting the claim at this input. -/
theorem stale_result_counterexample :
    (submitRun initApp
        [SubmitEvent.submitStart, SubmitEvent.submitStart,
          SubmitEvent.resolveOk 1 secondResult]).transcription =
      some secondResult ∧
    (submitRun initApp
        [SubmitEvent.submitStart, SubmitEvent.submitStart,
          SubmitEvent.resolveOk 1 secondResult]).nextJob = 2 ∧
    (submitRun initApp
        [SubmitEvent.submitStart, SubmitEvent.submitStart,
          SubmitEvent.resolveOk 1 secondResult,
          SubmitEvent.resolveOk 0 firstResult]).transcription =
      some firstResult ∧
    firstResult ≠ secondResult := by
  refine ⟨rfl, rfl, rfl, by decide⟩

/-- C1 amended: `handleSubmit` makes no current-job comparison at
resolution time: when the network promise of any in-flight submission
`j` fulfils, its result is applied to the transcript, speaker, and
excerpt state unconditionally — also when `j` is stale, i.e. a newer
submission has started since.  (The UI disables the submit button while
`loading`, which discourages but does not prevent overlap: choosing a
new file mid-flight does not cancel the running job.) -/
theorem resolve_applied_unconditionally (s : AppState) (j : Nat)
    (us : List Utterance) (hj : j ∈ s.inflight) :
    (submitStep s (SubmitEvent.resolveOk j us)).transcription = some us ∧
    (submitStep s (SubmitEvent.resolveOk j us)).speakers =
      (objectKeys (us.map (·.speaker))).map (fun sp => (sp, "")) ∧
    (submitStep s (SubmitEvent.resolveOk j us)).speakerExcerpts =
      findSpeakerExcerpts us := by
  simp only [submitStep]
  rw [if_pos hj]
  exact ⟨rfl, rfl, rfl⟩

/-- Witness for `resolve_applied_unconditionally`: the stale job 0
resolving after job 1 has started (and already resolved). -/
theorem resolve_applied_unconditionally_witness :
    (0 : Nat) ∈ (submitRun initApp
        [SubmitEvent.submitStart, SubmitEvent.submitStart,
          SubmitEvent.resolveOk 1 secondResult]).inflight ∧
    ((submitStep (submitRun initApp
          [SubmitEvent.submitStart, SubmitEvent.submitStart,
            SubmitEvent.resolveOk 1 secondResult])
        (SubmitEvent.resolveOk 0 firstResult)).transcription = some firstResult ∧
      (submitStep (submitRun initApp
          [SubmitEvent.submitStart, SubmitEvent.submitStart,
            SubmitEvent.resolveOk 1 secondResult])
        (SubmitEvent.resolveOk 0 firstResult)).speakers =
        (objectKeys (firstResult.map (·.speaker))).map (fun sp => (sp, "")) ∧
      (submitStep (submitRun initApp
          [SubmitEvent.submitStart, SubmitEvent.submitStart,
            SubmitEvent.resolveOk 1 secondResult])
        (SubmitEvent.resolveOk 0 firstResult)).speakerExcerpts =
        findSpeakerExcerpts firstResult) :=
  ⟨by decide, resolve_applied_unconditionally _ 0 firstResult (by decide)⟩

end TranscriptionApp
